import Mathlib

/-!
Shallow embedding of the crop-box geometry and export pipeline of
`app.py` (classes `ResizeHandle`, `DraggableRectItem`, `ImageProcessor`).

Conventions:
* Qt's `qreal` coordinates (`QRectF`, item positions, scene positions) are
  modelled as `ℚ`; integer pixel coordinates (`QRect`, image sizes) as `ℤ`.
* Python strings are modelled as `List Char`.
* A Python function that can raise an uncaught exception is modelled as an
  `Option`-returning function, `none` meaning the exception escaped.
* Behaviour of the Qt library functions used by `app.py` (`QRect::center`,
  `QRectF::toRect`, `QImage::copy`, `QImage::scaled`,
  `QGraphicsRectItem::boundingRect`) is embedded from their documented
  semantics, since the repository delegates to them.
-/

/-- C++ integer division (used by Qt): truncation toward zero. -/
def cppDiv (a b : ℤ) : ℤ := Int.tdiv a b

/-- Python `//` on integers: floor division. -/
def pyFloorDiv (a b : ℤ) : ℤ := Int.fdiv a b

/-- Qt's `qRound`: round half away from zero (`int(x + 0.5)` for
nonnegative `x`, `int(x - 0.5)` for negative `x`, with C truncation). -/
def qRound (x : ℚ) : ℤ := if 0 ≤ x then ⌊x + 1 / 2⌋ else -⌊-x + 1 / 2⌋

/-- Integer rectangle, as Qt's `QRect` (x, y, width, height). -/
structure QRect where
  x : ℤ
  y : ℤ
  w : ℤ
  h : ℤ
deriving DecidableEq

/-- Real rectangle, as Qt's `QRectF` (x, y, width, height). -/
structure RectF where
  x : ℚ
  y : ℚ
  w : ℚ
  h : ℚ
deriving DecidableEq

/-- `QRectF::translate(dx, dy)`. -/
def RectF.translate (r : RectF) (dx dy : ℚ) : RectF :=
  { r with x := r.x + dx, y := r.y + dy }

/-- `QRectF::toRect()`: each of x, y, w, h rounded with `qRound`. -/
def RectF.toRect (r : RectF) : QRect :=
  ⟨qRound r.x, qRound r.y, qRound r.w, qRound r.h⟩

/-- An in-memory image, as Qt's `QImage`: a width, a height, and the pixel
value at each integer coordinate (meaningful on `0 ≤ x < width`,
`0 ≤ y < height`). -/
structure QImage where
  width : ℤ
  height : ℤ
  pix : ℤ → ℤ → ℤ

/-- A null (empty) `QImage`. -/
def nullQImage : QImage := ⟨0, 0, fun _ _ => 0⟩

/-- `QImage::copy(rect)`, per the Qt documentation: the result always has
the size of `rect`; pixels copied from the source where the rectangle
overlaps it and set to 0 beyond the source image; a null rectangle
(width and height both 0) copies the whole image; a rectangle with
negative width or height produces a null image (the `QImage(w, h, format)`
constructor fails). -/
def qcopy (img : QImage) (r : QRect) : QImage :=
  if r.w = 0 ∧ r.h = 0 then img
  else if r.w ≤ 0 ∨ r.h ≤ 0 then nullQImage
  else
    { width := r.w, height := r.h,
      pix := fun x y =>
        if 0 ≤ x + r.x ∧ x + r.x < img.width ∧ 0 ≤ y + r.y ∧ y + r.y < img.height
        then img.pix (x + r.x) (y + r.y) else 0 }

/-- `QSize::scaled(target, Qt::KeepAspectRatio)`: the largest size that
fits inside the target while preserving the source aspect ratio, computed
with `qint64` integer arithmetic as in Qt's source. `(sw, sh)` is the
source size, `(tw, th)` the target. -/
def qscaledDims (sw sh tw th : ℤ) : ℤ × ℤ :=
  if sw = 0 ∨ sh = 0 then (tw, th)
  else
    let rw := cppDiv (th * sw) sh
    if rw ≤ tw then (rw, th) else (tw, cppDiv (tw * sh) sw)

/-- `QImage::scaled(w, h, Qt::KeepAspectRatio)`: result dimensions from
`qscaledDims`; an empty target or a null source yields a null image. The
pixel sampling models nearest-neighbour resampling (Qt's default
`Qt::FastTransformation` is a fixed-point variant of it; no claim below
depends on resampled pixel values). -/
def qscaled (img : QImage) (tw th : ℤ) : QImage :=
  if tw ≤ 0 ∨ th ≤ 0 then nullQImage
  else if img.width ≤ 0 ∨ img.height ≤ 0 then nullQImage
  else
    let d := qscaledDims img.width img.height tw th
    { width := d.1, height := d.2,
      pix := fun x y => img.pix (cppDiv (x * img.width) d.1) (cppDiv (y * img.height) d.2) }

/-- The crop box (`DraggableRectItem`): its local rectangle
(`rx, ry, rw, rh`, from `setRect`/`rect()`), its scene position
(`px, py`, from `setPos`/`pos()`), and its pen width (`setPen`). -/
structure BoxItem where
  rx : ℚ
  ry : ℚ
  rw : ℚ
  rh : ℚ
  px : ℚ
  py : ℚ
  penW : ℚ
deriving DecidableEq

/-- Side length of the square resize handle: `ResizeHandle.__init__` does
`self.setRect(-40, -40, 40, 40)`, so `handle_rect.width()` and
`handle_rect.height()` are both 40 at every later point. -/
def handleSide : ℚ := 40

/-- `ResizeHandle.mouseMoveEvent` (the selected-handle branch), acting on
the parent crop box: with `(sx, sy)` the pointer's scene position,

  dx = sx - rect.x - rect.width + handle.width / 2
  dy = sy - rect.y - rect.height + handle.height / 2
  new_size = max dx dy
  rect.width, rect.height += new_size
-/
def resizeFromCorner (b : BoxItem) (sx sy : ℚ) : BoxItem :=
  let dx := sx - b.rx - b.rw + handleSide / 2
  let dy := sy - b.ry - b.rh + handleSide / 2
  let ns := max dx dy
  { b with rw := ns + b.rw, rh := ns + b.rh }

/-- `QGraphicsRectItem::boundingRect()` for an item whose pen is not
`NoPen` (the app sets a solid red pen of width 20): `rect()` grown by half
the pen width on every side. -/
def BoxItem.boundingRect (b : BoxItem) : RectF :=
  ⟨b.rx - b.penW / 2, b.ry - b.penW / 2, b.rw + b.penW, b.rh + b.penW⟩

/-- The coordinate of `QRect(0, 0, len, len2).center()` along an axis of
length `len`: Qt computes `(x1 + x2) / 2` with `x2 = x1 + len - 1` in
`qint64` arithmetic. -/
def qtCenter (len : ℤ) : ℤ := cppDiv (0 + (len - 1)) 2

/-! ## Python string primitives used by `save_image` -/

/-- Python's `\w` on the ASCII range (the filenames in play are ASCII):
letters, digits, and the underscore. -/
def isWordChar (c : Char) : Bool := c.isAlphanum || c == '_'

/-- The tail of the inline pattern `\w+_\d{3}.jpg` after the `\w+` part:
an underscore, three digits, one arbitrary character other than a newline
(`.`), then the literal `jpg`.  `re.match` does not anchor the end, so any
trailing characters are accepted. -/
def patTail (cs : List Char) : Bool :=
  match cs with
  | '_' :: d1 :: d2 :: d3 :: c :: 'j' :: 'p' :: 'g' :: _ =>
    d1.isDigit && d2.isDigit && d3.isDigit && !(c == '\n')
  | _ => false

/-- `re.match(r"\w+_\d{3}.jpg", s)`: some split of a prefix of `s` into a
nonempty run of word characters followed by `patTail` succeeds. -/
def reMatchName (cs : List Char) : Bool :=
  (List.range cs.length).any fun i =>
    !(i == 0) && (cs.take i).all isWordChar && patTail (cs.drop i)

/-- Python `str.split(sep)` for a one-character separator: split at every
occurrence, keeping empty pieces. -/
def pySplitChar (sep : Char) : List Char → List (List Char)
  | [] => [[]]
  | c :: cs =>
    match pySplitChar sep cs with
    | [] => [[]]
    | p :: ps => if c == sep then [] :: p :: ps else (c :: p) :: ps

/-- The ASCII digit character for `d < 10`. -/
def mkDigit (d : ℕ) : Char := Char.ofNat (48 + d)

/-- Big-endian decimal digits of `n`, with explicit fuel (any
`fuel ≥ n` is enough); empty for `n = 0`. -/
def natDigitsAux : ℕ → ℕ → List Char
  | 0, _ => []
  | _ + 1, 0 => []
  | fuel + 1, n => natDigitsAux fuel (n / 10) ++ [mkDigit (n % 10)]

/-- Python `str(n)` for a natural number. -/
def pyStrNat (n : ℕ) : List Char :=
  if n = 0 then ['0'] else natDigitsAux n n

/-- Python `str.zfill(k)` for an unsigned string: left-pad with `'0'` to
length at least `k`. -/
def pyZfill (k : ℕ) (cs : List Char) : List Char :=
  List.replicate (k - cs.length) '0' ++ cs

/-- Value of a string of decimal digits (most significant first). -/
def digitsVal (cs : List Char) : ℕ :=
  cs.foldl (fun a c => 10 * a + (c.toNat - 48)) 0

/-- Python `int(s)` on the strings that reach it in `save_image`: the
argument there is a run of characters cut out between the first two
underscores and before the first dot of a string matched by
`reMatchName`, hence (when parseable at all) a nonempty all-digit string;
`none` models the `ValueError` Python raises otherwise. -/
def pyIntDigits (cs : List Char) : Option ℕ :=
  if cs ≠ [] ∧ cs.all Char.isDigit then some (digitsVal cs) else none

/-- Python `file_path.split("/")[-1]`: the basename of a `/`-separated
path. -/
def pyBasename (p : List Char) : List Char :=
  (pySplitChar '/' p).getLastD []

/-- Lines 379–380 of `app.py`: if the current suggested filename matches
`\w+_\d{3}.jpg`, rebuild it as
`split("_")[0] ++ "_" ++ str(int(split("_")[1].split(".")[0]) + 1).zfill(3) ++ ".jpg"`;
otherwise leave it unchanged.  `none` models the `ValueError` escaping
when the segment between the first two underscores is not a number. -/
def incrementSuggested (s : List Char) : Option (List Char) :=
  if reMatchName s then
    let parts := pySplitChar '_' s
    match pyIntDigits ((pySplitChar '.' (parts.getD 1 [])).headD []) with
    | none => none
    | some n =>
      some (parts.headD [] ++ ['_'] ++ pyZfill 3 (pyStrNat (n + 1)) ++ ".jpg".data)
  else some s

/-! ## The `ImageProcessor` session state and its operations -/

/-- The mutable session fields of `ImageProcessor` that the claims are
about: the loaded image (and the untouched original), the export target
size, the crop box, the suggested filename, and the status label text. -/
structure AppState where
  image : Option QImage
  image_original : Option QImage
  image_width : ℤ
  image_height : ℤ
  box : Option BoxItem
  suggested_filename : List Char
  message : List Char

/-- The state set up by `ImageProcessor.__init__`. -/
def initState : AppState :=
  { image := none, image_original := none, image_width := 1024, image_height := 1024,
    box := none, suggested_filename := "image_000.jpg".data, message := [] }

/-- `ImageProcessor.draw_image` with the default `draw_box=True`: a no-op
without an image; otherwise re-creates the crop box as a
`image_width × image_height` rectangle positioned at the image's Qt
integer center minus half the box size (Python `//`), with the 20-wide
red pen. -/
def draw_image (st : AppState) : AppState :=
  match st.image with
  | none => st
  | some img =>
    let box : BoxItem :=
      { rx := 0, ry := 0, rw := (st.image_width : ℚ), rh := (st.image_height : ℚ),
        px := ((qtCenter img.width - pyFloorDiv st.image_width 2 : ℤ) : ℚ),
        py := ((qtCenter img.height - pyFloorDiv st.image_height 2 : ℤ) : ℚ),
        penW := 20 }
    { st with box := some box }

/-- `ImageProcessor.set_image_size`: the three combo-box strings set the
target dimensions and redraw; any other string raises `ValueError`
(modelled by `none`). -/
def set_image_size (size : List Char) (st : AppState) : Option AppState :=
  if size = "512 x 512".data then
    some (draw_image { st with image_width := 512, image_height := 512 })
  else if size = "1024 x 1024".data then
    some (draw_image { st with image_width := 1024, image_height := 1024 })
  else if size = "2048 x 2048".data then
    some (draw_image { st with image_width := 2048, image_height := 2048 })
  else none

/-- `ImageProcessor.load_image`: an empty `file_path` falls back to the
open-file dialog (`dialogPath` is what the dialog would return, `[]` for
cancel); a nonempty resulting path loads that file (`fs` maps paths to
their decoded images) and redraws. -/
def load_image (st : AppState) (file_path dialogPath : List Char)
    (fs : List Char → QImage) : AppState :=
  let fp := if file_path = [] then dialogPath else file_path
  if fp = [] then st
  else draw_image { st with image := some (fs fp), image_original := some (fs fp) }

/-- `ImageProcessor.dropEvent`: calls `load_image` on the local path of
every dropped URL in order (`urls` are the results of `toLocalFile`). -/
def dropEvent (st : AppState) (urls : List (List Char)) (dialogPath : List Char)
    (fs : List Char → QImage) : AppState :=
  urls.foldl (fun s u => load_image s u dialogPath fs) st

/-- Lines 372–377 of `save_image`: the rectangle actually cropped — the
box's `boundingRect()` (pen-inflated), translated by the box position,
then `toRect()`. -/
def saveCropRect (b : BoxItem) : QRect :=
  ((b.boundingRect).translate b.px b.py).toRect

/-- `ImageProcessor.save_image`.  `chosen` is the path returned by the
save dialog (`[]` when the user cancels).  The result is `none` when a
`ValueError` escapes from the filename increment; otherwise
`some (st', written)` where `written` is the path and image handed to
`QImage::save` (`none` when nothing is written).  The code ignores the
boolean result of `QImage::save`, so a failing write changes state
exactly like a successful one. -/
def save_image (st : AppState) (chosen : List Char) :
    Option (AppState × Option (List Char × QImage)) :=
  match st.image, st.box with
  | some img, some b =>
    let cropped := qcopy img (saveCropRect b)
    match incrementSuggested st.suggested_filename with
    | none => none
    | some sugg =>
      let st1 := { st with suggested_filename := sugg }
      if chosen = [] then some (st1, none)
      else
        let out := qscaled cropped st1.image_width st1.image_height
        some ({ st1 with suggested_filename := pyBasename chosen,
                         message := "Saved!".data },
              some (chosen, out))
  | _, _ => some (st, none)

/-! ## Claims -/

/-- C1 (counterexample): for the square crop box at (0, 0) with side 100
and pointer (150, 120), the claimed new side `side + max(dx, dy)` would be
150, but `resizeFromCorner` produces 170: the code adds
`handle_rect.width() / 2 = 20` to each delta, so the claim's "no other
offsets applied" is false. -/
theorem c1_counterexample :
    (resizeFromCorner ⟨0, 0, 100, 100, 0, 0, 20⟩ 150 120).rw ≠
      100 + max ((150 : ℚ) - 0 - 100) ((120 : ℚ) - 0 - 100) := by
  simp only [resizeFromCorner, handleSide, max_def]
  norm_num

/-- C1 (amended): for every square crop box (side = rw = rh) and every
pointer position, the new side after `resizeFromCorner` is
`side + max(dx, dy) + 20`, where dx, dy are the claim's far-corner deltas
and 20 is half the 40-unit resize-handle width. -/
theorem c1_resize_half_handle_offset (b : BoxItem) (sx sy : ℚ) (hsq : b.rh = b.rw) :
    (resizeFromCorner b sx sy).rw
        = b.rw + max (sx - b.rx - b.rw) (sy - b.ry - b.rw) + handleSide / 2 ∧
      (resizeFromCorner b sx sy).rh
        = b.rw + max (sx - b.rx - b.rw) (sy - b.ry - b.rw) + handleSide / 2 := by
  simp only [resizeFromCorner, hsq]
  constructor <;> rw [max_add_add_right] <;> ring

/-- C1 (amended, witness): the amended rule evaluated at the
counterexample's input gives 170. -/
theorem c1_resize_half_handle_offset_witness :
    (resizeFromCorner ⟨0, 0, 100, 100, 0, 0, 20⟩ 150 120).rw
      = 100 + max ((150 : ℚ) - 0 - 100) ((120 : ℚ) - 0 - 100) + handleSide / 2 :=
  (c1_resize_half_handle_offset ⟨0, 0, 100, 100, 0, 0, 20⟩ 150 120 rfl).1

/-- C2: a crop box that is square stays square: `draw_image` creates the
box square whenever the target width and height agree (they always do —
`__init__` and `set_image_size` only ever set equal pairs), and any
sequence of `resizeFromCorner` calls, growing or shrinking, preserves
`rw = rh`. -/
theorem c2_square_invariant :
    (∀ st : AppState, ∀ img : QImage, st.image = some img →
        st.image_width = st.image_height →
        ∃ b : BoxItem, (draw_image st).box = some b ∧ b.rw = b.rh) ∧
      (∀ b : BoxItem, ∀ ps : List (ℚ × ℚ), b.rw = b.rh →
        (ps.foldl (fun x p => resizeFromCorner x p.1 p.2) b).rw
          = (ps.foldl (fun x p => resizeFromCorner x p.1 p.2) b).rh) := by
  constructor
  · intro st img himg hwh
    simp only [draw_image, himg]
    refine ⟨_, rfl, ?_⟩
    show (st.image_width : ℚ) = (st.image_height : ℚ)
    exact_mod_cast hwh
  · intro b ps hsq
    induction ps generalizing b with
    | nil => simpa using hsq
    | cons p ps ih =>
      simp only [List.foldl_cons]
      exact ih _ (by simp [resizeFromCorner, hsq])

/-- C2 (witness): one resize of the square box at (0, 0) with side 100
leaves it square. -/
theorem c2_square_invariant_witness :
    ([((150 : ℚ), (120 : ℚ))].foldl (fun x p => resizeFromCorner x p.1 p.2)
        ⟨0, 0, 100, 100, 0, 0, 20⟩).rw
      = ([((150 : ℚ), (120 : ℚ))].foldl (fun x p => resizeFromCorner x p.1 p.2)
        ⟨0, 0, 100, 100, 0, 0, 20⟩).rh :=
  c2_square_invariant.2 ⟨0, 0, 100, 100, 0, 0, 20⟩ [(150, 120)] rfl

/-- `draw_image` never touches the loaded image, only the box. -/
lemma draw_image_image (st : AppState) : (draw_image st).image = st.image := by
  cases hst : st.image <;> simp [draw_image, hst]

/-- `draw_image` never touches the target dimensions. -/
lemma draw_image_dims (st : AppState) :
    (draw_image st).image_width = st.image_width ∧
      (draw_image st).image_height = st.image_height := by
  cases hst : st.image <;> simp [draw_image, hst]

/-- `load_image` with a nonempty path loads exactly that file's image. -/
lemma load_image_sets (st : AppState) (fp d : List Char) (fs : List Char → QImage)
    (h : fp ≠ []) : (load_image st fp d fs).image = some (fs fp) := by
  simp only [load_image, if_neg h]
  rw [draw_image_image]

/-- C8: with no image loaded or no crop box, `save_image` is a silent
no-op: no exception, no file written, and the state is returned
unchanged. -/
theorem c8_save_noop (st : AppState) (chosen : List Char)
    (h : st.image = none ∨ st.box = none) :
    save_image st chosen = some (st, none) := by
  unfold save_image
  rcases h with h | h
  · rw [h]
  · rw [h]; cases st.image <;> rfl

/-- C8 (witness): saving from the freshly initialized state does
nothing. -/
theorem c8_save_noop_witness :
    save_image initState [] = some (initState, none) :=
  c8_save_noop initState [] (Or.inl rfl)

/-- C9: `set_image_size` raises `ValueError` (modelled as `none`) on every
string other than the three enumerated choices, and each enumerated choice
sets the target width and height to the corresponding dimensions without
error. -/
theorem c9_set_image_size_spec :
    (∀ s : List Char, ∀ st : AppState,
        s ≠ "512 x 512".data → s ≠ "1024 x 1024".data → s ≠ "2048 x 2048".data →
        set_image_size s st = none) ∧
      (∀ st : AppState,
        ((set_image_size "512 x 512".data st).map fun r => (r.image_width, r.image_height))
            = some (512, 512) ∧
          ((set_image_size "1024 x 1024".data st).map fun r => (r.image_width, r.image_height))
            = some (1024, 1024) ∧
          ((set_image_size "2048 x 2048".data st).map fun r => (r.image_width, r.image_height))
            = some (2048, 2048)) := by
  constructor
  · intro s st h1 h2 h3
    simp [set_image_size, h1, h2, h3]
  · intro st
    refine ⟨?_, ?_, ?_⟩
    · rw [set_image_size, if_pos rfl]
      simp [(draw_image_dims _).1, (draw_image_dims _).2]
    · rw [set_image_size, if_neg (by decide), if_pos rfl]
      simp [(draw_image_dims _).1, (draw_image_dims _).2]
    · rw [set_image_size, if_neg (by decide), if_neg (by decide), if_pos rfl]
      simp [(draw_image_dims _).1, (draw_image_dims _).2]

/-- C9 (witness): an unrecognized selection string is rejected from the
initial state. -/
theorem c9_set_image_size_spec_witness :
    set_image_size "256 x 256".data initState = none :=
  c9_set_image_size_spec.1 "256 x 256".data initState (by decide) (by decide) (by decide)

/-- C10 (amended): when several file URLs are dropped, `dropEvent` loads
each in turn, so the image present afterwards is the one from the *last*
URL in the list. -/
theorem c10_last_url_wins (st : AppState) (urls : List (List Char)) (d : List Char)
    (fs : List Char → QImage) (hne : urls ≠ []) (hall : ∀ u ∈ urls, u ≠ []) :
    (dropEvent st urls d fs).image = some (fs (urls.getLastD [])) := by
  induction urls generalizing st with
  | nil => exact absurd rfl hne
  | cons u us ih =>
    cases us with
    | nil =>
      simp only [dropEvent, List.foldl_cons, List.foldl_nil, List.getLastD_cons,
        List.getLastD_nil]
      exact load_image_sets st u d fs (hall u (by simp))
    | cons v vs =>
      have hstep : dropEvent st (u :: v :: vs) d fs
          = dropEvent (load_image st u d fs) (v :: vs) d fs := rfl
      rw [hstep, ih (load_image st u d fs) (by simp)
        (fun x hx => hall x (List.mem_cons_of_mem u hx))]
      simp [List.getLastD_cons]

/-- A 100 × 100 stand-in image. -/
def imgA : QImage := ⟨100, 100, fun _ _ => 0⟩

/-- A 200 × 200 stand-in image. -/
def imgB : QImage := ⟨200, 200, fun _ _ => 0⟩

/-- A two-file filesystem: `a.png` decodes to `imgA`, anything else to
`imgB`. -/
def twoFiles : List Char → QImage := fun p => if p = "a.png".data then imgA else imgB

/-- C10 (counterexample): dropping the two URLs `a.png` (100 × 100) and
`b.png` (200 × 200) leaves the 200 × 200 image loaded — the image from
the *last* URL, not the first as claimed. -/
theorem c10_counterexample :
    ((dropEvent initState ["a.png".data, "b.png".data] [] twoFiles).image.map QImage.width)
        = some (200 : ℤ) ∧
      (twoFiles "a.png".data).width = 100 ∧ (twoFiles "b.png".data).width = 200 :=
  ⟨rfl, rfl, rfl⟩

/-- C10 (amended, witness): the last-URL rule evaluated on the concrete
two-URL drop. -/
theorem c10_last_url_wins_witness :
    (dropEvent initState ["a.png".data, "b.png".data] [] twoFiles).image
      = some (twoFiles (["a.png".data, "b.png".data].getLastD [])) :=
  c10_last_url_wins initState ["a.png".data, "b.png".data] [] twoFiles (by decide)
    (by decide)

/-- The crop box created by `draw_image` when an image is present. -/
lemma draw_image_box (st : AppState) (img : QImage) (himg : st.image = some img) :
    (draw_image st).box = some
      ⟨0, 0, (st.image_width : ℚ), (st.image_height : ℚ),
        ((qtCenter img.width - pyFloorDiv st.image_width 2 : ℤ) : ℚ),
        ((qtCenter img.height - pyFloorDiv st.image_height 2 : ℤ) : ℚ), 20⟩ := by
  simp [draw_image, himg]

/-- Qt's integer center coordinate `(0 + (len - 1)) / 2` is within one
unit of the exact half-length. -/
lemma qtCenter_close (w : ℤ) (hw : 1 ≤ w) :
    |((qtCenter w : ℤ) : ℚ) - (w : ℚ) / 2| ≤ 1 := by
  have he : qtCenter w = (w - 1) / 2 := by
    unfold qtCenter cppDiv
    rw [Int.tdiv_eq_ediv (by omega) (by norm_num)]
    norm_num
  have h2 : 2 * ((w - 1) / 2) = w - 1 ∨ 2 * ((w - 1) / 2) = w - 2 := by omega
  rw [he, abs_le]
  rcases h2 with h2 | h2
  · have hq : (2 : ℚ) * (((w - 1) / 2 : ℤ) : ℚ) = (w : ℚ) - 1 := by exact_mod_cast h2
    exact ⟨by linarith, by linarith⟩
  · have hq : (2 : ℚ) * (((w - 1) / 2 : ℤ) : ℚ) = (w : ℚ) - 2 := by exact_mod_cast h2
    exact ⟨by linarith, by linarith⟩

/-- C5: selecting any of the three size targets on a loaded image produces
a crop box whose side equals the target side exactly, positioned within
one unit of dead center on each axis. -/
theorem c5_target_box_centered (st : AppState) (img : QImage) (s : List Char) (n : ℤ)
    (himg : st.image = some img) (hw : 1 ≤ img.width) (hh : 1 ≤ img.height)
    (hs : (s = "512 x 512".data ∧ n = 512) ∨ (s = "1024 x 1024".data ∧ n = 1024) ∨
        (s = "2048 x 2048".data ∧ n = 2048)) :
    ∃ st' : AppState, ∃ b : BoxItem, set_image_size s st = some st' ∧ st'.box = some b ∧
      b.rw = (n : ℚ) ∧ b.rh = (n : ℚ) ∧
      |b.px - ((img.width : ℚ) / 2 - (n : ℚ) / 2)| ≤ 1 ∧
      |b.py - ((img.height : ℚ) / 2 - (n : ℚ) / 2)| ≤ 1 := by
  have h1 := qtCenter_close img.width hw
  have h2 := qtCenter_close img.height hh
  rcases hs with ⟨hs, hn⟩ | ⟨hs, hn⟩ | ⟨hs, hn⟩ <;> subst hs <;> subst hn
  · rw [set_image_size, if_pos rfl]
    refine ⟨_, _, rfl, draw_image_box _ img himg, by norm_num, by norm_num, ?_, ?_⟩
    · rw [show pyFloorDiv 512 2 = 256 from by decide,
        show ((qtCenter img.width - 256 : ℤ) : ℚ) - ((img.width : ℚ) / 2 - ((512 : ℤ) : ℚ) / 2)
          = ((qtCenter img.width : ℤ) : ℚ) - (img.width : ℚ) / 2 from by push_cast; ring]
      exact h1
    · rw [show pyFloorDiv 512 2 = 256 from by decide,
        show ((qtCenter img.height - 256 : ℤ) : ℚ) - ((img.height : ℚ) / 2 - ((512 : ℤ) : ℚ) / 2)
          = ((qtCenter img.height : ℤ) : ℚ) - (img.height : ℚ) / 2 from by push_cast; ring]
      exact h2
  · rw [set_image_size, if_neg (by decide), if_pos rfl]
    refine ⟨_, _, rfl, draw_image_box _ img himg, by norm_num, by norm_num, ?_, ?_⟩
    · rw [show pyFloorDiv 1024 2 = 512 from by decide,
        show ((qtCenter img.width - 512 : ℤ) : ℚ) - ((img.width : ℚ) / 2 - ((1024 : ℤ) : ℚ) / 2)
          = ((qtCenter img.width : ℤ) : ℚ) - (img.width : ℚ) / 2 from by push_cast; ring]
      exact h1
    · rw [show pyFloorDiv 1024 2 = 512 from by decide,
        show ((qtCenter img.height - 512 : ℤ) : ℚ) - ((img.height : ℚ) / 2 - ((1024 : ℤ) : ℚ) / 2)
          = ((qtCenter img.height : ℤ) : ℚ) - (img.height : ℚ) / 2 from by push_cast; ring]
      exact h2
  · rw [set_image_size, if_neg (by decide), if_neg (by decide), if_pos rfl]
    refine ⟨_, _, rfl, draw_image_box _ img himg, by norm_num, by norm_num, ?_, ?_⟩
    · rw [show pyFloorDiv 2048 2 = 1024 from by decide,
        show ((qtCenter img.width - 1024 : ℤ) : ℚ) - ((img.width : ℚ) / 2 - ((2048 : ℤ) : ℚ) / 2)
          = ((qtCenter img.width : ℤ) : ℚ) - (img.width : ℚ) / 2 from by push_cast; ring]
      exact h1
    · rw [show pyFloorDiv 2048 2 = 1024 from by decide,
        show ((qtCenter img.height - 1024 : ℤ) : ℚ) - ((img.height : ℚ) / 2 - ((2048 : ℤ) : ℚ) / 2)
          = ((qtCenter img.height : ℤ) : ℚ) - (img.height : ℚ) / 2 from by push_cast; ring]
      exact h2

/-- A blank 1024 × 1024 image. -/
def demoImg1024 : QImage := ⟨1024, 1024, fun _ _ => 0⟩

/-- C5 (witness): selecting "512 x 512" with a 1024 × 1024 image
loaded. -/
theorem c5_target_box_centered_witness :
    ∃ st' : AppState, ∃ b : BoxItem,
      set_image_size "512 x 512".data { initState with image := some demoImg1024 }
          = some st' ∧
        st'.box = some b ∧ b.rw = ((512 : ℤ) : ℚ) ∧ b.rh = ((512 : ℤ) : ℚ) ∧
        |b.px - ((demoImg1024.width : ℚ) / 2 - ((512 : ℤ) : ℚ) / 2)| ≤ 1 ∧
        |b.py - ((demoImg1024.height : ℚ) / 2 - ((512 : ℤ) : ℚ) / 2)| ≤ 1 :=
  c5_target_box_centered _ demoImg1024 _ 512 rfl (by decide) (by decide)
    (Or.inl ⟨rfl, rfl⟩)

/-- A 4 × 4 demo image whose pixel at (x, y) is 1 + x + 4y. -/
def demoImg4 : QImage := ⟨4, 4, fun x y => 1 + x + 4 * y⟩

/-- C6 (counterexample): cropping the 4 × 4 image against the region
(2, 2, 4, 4), which sticks out past the image, yields a full 4 × 4 result
— the requested size — with the out-of-source area zero-filled, not an
image clipped to the 2 × 2 available area. -/
theorem c6_counterexample :
    (qcopy demoImg4 ⟨2, 2, 4, 4⟩).width = 4 ∧
      (qcopy demoImg4 ⟨2, 2, 4, 4⟩).height = 4 ∧
      demoImg4.width < 2 + 4 ∧
      (qcopy demoImg4 ⟨2, 2, 4, 4⟩).pix 0 0 = demoImg4.pix 2 2 ∧
      (qcopy demoImg4 ⟨2, 2, 4, 4⟩).pix 3 3 = 0 := by
  refine ⟨?_, ?_, by norm_num [demoImg4], ?_, ?_⟩ <;> norm_num [qcopy, demoImg4]

/-- C6 (amended): the crop never raises, but for a positive-size region it
is not clipped: the result has exactly the requested size, pixels are
copied where the region overlaps the source, and pixels beyond the source
are set to 0 (zero padding). -/
theorem c6_copy_pads_not_clips (img : QImage) (r : QRect) (hw : 0 < r.w) (hh : 0 < r.h) :
    (qcopy img r).width = r.w ∧ (qcopy img r).height = r.h ∧
      (∀ x y : ℤ, 0 ≤ x + r.x → x + r.x < img.width → 0 ≤ y + r.y → y + r.y < img.height →
        (qcopy img r).pix x y = img.pix (x + r.x) (y + r.y)) ∧
      (∀ x y : ℤ,
        ¬(0 ≤ x + r.x ∧ x + r.x < img.width ∧ 0 ≤ y + r.y ∧ y + r.y < img.height) →
        (qcopy img r).pix x y = 0) := by
  have hc1 : ¬(r.w = 0 ∧ r.h = 0) := by omega
  have hc2 : ¬(r.w ≤ 0 ∨ r.h ≤ 0) := by omega
  simp only [qcopy]
  rw [if_neg hc1, if_neg hc2]
  refine ⟨rfl, rfl, ?_, ?_⟩
  · intro x y h1 h2 h3 h4
    exact if_pos ⟨h1, h2, h3, h4⟩
  · intro x y h
    exact if_neg h

/-- C6 (amended, witness): the padding rule evaluated on the concrete
out-of-bounds crop. -/
theorem c6_copy_pads_not_clips_witness :
    (qcopy demoImg4 ⟨2, 2, 4, 4⟩).width = (⟨2, 2, 4, 4⟩ : QRect).w ∧
      (qcopy demoImg4 ⟨2, 2, 4, 4⟩).pix 1 1 = demoImg4.pix (1 + 2) (1 + 2) ∧
      (qcopy demoImg4 ⟨2, 2, 4, 4⟩).pix 3 0 = 0 := by
  obtain ⟨h1, _, h3, h4⟩ :=
    c6_copy_pads_not_clips demoImg4 ⟨2, 2, 4, 4⟩ (by decide) (by decide)
  exact ⟨h1, h3 1 1 (by decide) (by decide) (by decide) (by decide), h4 3 0 (by decide)⟩

/-- A successful run of `save_image`: image and box present, filename
increment succeeds, a destination was chosen.  The state gets the chosen
path's basename as the new suggestion and the "Saved!" message, and the
pen-inflated crop of the image, scaled to the target, is written to the
chosen path. -/
lemma save_image_run (st : AppState) (img : QImage) (b : BoxItem) (sugg chosen : List Char)
    (himg : st.image = some img) (hbox : st.box = some b)
    (hinc : incrementSuggested st.suggested_filename = some sugg) (hch : chosen ≠ []) :
    save_image st chosen = some
      ({ st with suggested_filename := pyBasename chosen, message := "Saved!".data },
        some (chosen,
          qscaled (qcopy img (saveCropRect b)) st.image_width st.image_height)) := by
  unfold save_image
  rw [himg, hbox, hinc]
  simp only []
  rw [if_neg hch]

/-- The session state after loading a 1024 × 1024 image into a fresh
session. -/
def c7Loaded : AppState := load_image initState "source.png".data [] (fun _ => demoImg1024)

/-- The session state after then selecting the "512 x 512" export
target. -/
def c7State : AppState :=
  draw_image { c7Loaded with image_width := 512, image_height := 512 }

/-- The crop box present in `c7State`: side 512, positioned at
(255, 255). -/
lemma c7State_box : c7State.box = some ⟨0, 0, 512, 512, (255 : ℚ), (255 : ℚ), 20⟩ := by
  decide

/-- The rectangle `save_image` would crop in `c7State`: the 512-box at
(255, 255) inflated by half the 20-wide pen on every side. -/
lemma c7_crop_rect :
    saveCropRect ⟨0, 0, 512, 512, (255 : ℚ), (255 : ℚ), 20⟩ = ⟨245, 245, 532, 532⟩ := by
  norm_num [saveCropRect, BoxItem.boundingRect, RectF.translate, RectF.toRect, qRound,
    QRect.mk.injEq]

/-- C7 (counterexample): in the 1024 × 1024 / "512 x 512" scenario the
rectangle actually cropped is (245, 245, 532, 532) — the box's rectangle
inflated by half the 20-pixel pen width, around the Qt integer center —
not the image's central (256, 256, 512, 512) region as claimed. -/
theorem c7_counterexample :
    set_image_size "512 x 512".data c7Loaded = some c7State ∧
      c7State.box.map saveCropRect = some ⟨245, 245, 532, 532⟩ ∧
      (⟨245, 245, 532, 532⟩ : QRect) ≠ ⟨256, 256, 512, 512⟩ := by
  refine ⟨by rw [set_image_size, if_pos rfl]; rfl, ?_, by decide⟩
  rw [c7State_box, Option.map_some', c7_crop_rect]

/-- C7 (amended): in that scenario, saving writes a 512 × 512 output
image, produced by cropping the rectangle (245, 245, 532, 532) (the
pen-inflated box) and scaling it down with aspect ratio kept. -/
theorem c7_save_region_and_size :
    set_image_size "512 x 512".data c7Loaded = some c7State ∧
      c7State.box.map saveCropRect = some ⟨245, 245, 532, 532⟩ ∧
      ((save_image c7State "out.jpg".data).map fun r =>
          r.2.map fun w => (w.2.width, w.2.height))
        = some (some ((512 : ℤ), (512 : ℤ))) := by
  refine ⟨by rw [set_image_size, if_pos rfl]; rfl,
    by rw [c7State_box, Option.map_some', c7_crop_rect], ?_⟩
  rw [save_image_run c7State demoImg1024 ⟨0, 0, 512, 512, (255 : ℚ), (255 : ℚ), 20⟩
    "image_001.jpg".data "out.jpg".data rfl c7State_box (by decide) (by decide)]
  rw [c7_crop_rect]
  rw [show c7State.image_width = 512 from rfl, show c7State.image_height = 512 from rfl]
  rw [show qcopy demoImg1024 ⟨245, 245, 532, 532⟩
      = ⟨532, 532, (qcopy demoImg1024 ⟨245, 245, 532, 532⟩).pix⟩ from by
    norm_num [qcopy, demoImg1024]]
  norm_num [qscaled, qscaledDims, cppDiv,
    show Int.tdiv 272384 532 = 512 from by decide]

/-! ## Facts about the filename pattern and increment -/

/-- The canonical suggested-filename shape of the spec: a stem, an
underscore, a 3-digit zero-padded counter, and `.jpg`. -/
def mkSuggested (stem : List Char) (n : ℕ) : List Char :=
  stem ++ '_' :: (pyZfill 3 (pyStrNat n) ++ ".jpg".data)

/-- A stem in the spec's sense: nonempty, made of word characters, and
containing no underscore (so the code's `split("_")` slicing recovers
it whole). -/
def plainStem (s : List Char) : Prop :=
  s ≠ [] ∧ s.all (fun c => isWordChar c && !(c == '_')) = true

lemma mkDigit_isDigit (d : ℕ) (h : d < 10) : (mkDigit d).isDigit = true := by
  interval_cases d <;> decide

lemma mkDigit_toNat (d : ℕ) (h : d < 10) : (mkDigit d).toNat = 48 + d := by
  interval_cases d <;> decide

lemma natDigitsAux_all_digit (fuel : ℕ) : ∀ n : ℕ,
    (natDigitsAux fuel n).all Char.isDigit = true := by
  induction fuel with
  | zero => intro n; rfl
  | succ fuel ih =>
    intro n
    cases n with
    | zero => rfl
    | succ m =>
      show (natDigitsAux fuel ((m + 1) / 10) ++ [mkDigit ((m + 1) % 10)]).all
          Char.isDigit = true
      rw [List.all_append, ih]
      simp [mkDigit_isDigit _ (Nat.mod_lt _ (by norm_num))]

lemma digitsVal_append_one (l : List Char) (c : Char) :
    digitsVal (l ++ [c]) = 10 * digitsVal l + (c.toNat - 48) := by
  simp [digitsVal, List.foldl_append]

lemma natDigitsAux_val (fuel : ℕ) : ∀ n : ℕ, n ≤ fuel →
    digitsVal (natDigitsAux fuel n) = n := by
  induction fuel with
  | zero => intro n hn; interval_cases n; rfl
  | succ fuel ih =>
    intro n hn
    cases n with
    | zero => rfl
    | succ m =>
      show digitsVal (natDigitsAux fuel ((m + 1) / 10) ++ [mkDigit ((m + 1) % 10)]) = m + 1
      rw [digitsVal_append_one,
        ih ((m + 1) / 10) (by
          have := Nat.div_lt_self (Nat.succ_pos m) (by norm_num : 1 < 10)
          omega),
        mkDigit_toNat _ (Nat.mod_lt _ (by norm_num))]
      omega

lemma pyStrNat_all_digit (n : ℕ) : (pyStrNat n).all Char.isDigit = true := by
  unfold pyStrNat
  split
  · rfl
  · exact natDigitsAux_all_digit n n

lemma digitsVal_pyStrNat (n : ℕ) : digitsVal (pyStrNat n) = n := by
  unfold pyStrNat
  split
  · simp_all [digitsVal]
  · exact natDigitsAux_val n n le_rfl

lemma natDigitsAux_length (fuel : ℕ) : ∀ n k : ℕ, n < 10 ^ k →
    (natDigitsAux fuel n).length ≤ k := by
  induction fuel with
  | zero => intro n k _; simp [natDigitsAux]
  | succ fuel ih =>
    intro n k hn
    cases n with
    | zero => simp [natDigitsAux]
    | succ m =>
      cases k with
      | zero => simp at hn
      | succ k =>
        show (natDigitsAux fuel ((m + 1) / 10) ++ [mkDigit ((m + 1) % 10)]).length ≤ k + 1
        rw [List.length_append]
        have hd : (m + 1) / 10 < 10 ^ k := by
          apply Nat.div_lt_of_lt_mul
          calc m + 1 < 10 ^ (k + 1) := hn
            _ = 10 * 10 ^ k := by ring
        have := ih ((m + 1) / 10) k hd
        simp only [List.length_cons, List.length_nil]
        omega

lemma pyStrNat_length_le (n : ℕ) (h : n ≤ 999) : (pyStrNat n).length ≤ 3 := by
  unfold pyStrNat
  split
  · simp
  · exact natDigitsAux_length n n 3 (by omega)

lemma pyZfill_length (cs : List Char) (h : cs.length ≤ 3) :
    (pyZfill 3 cs).length = 3 := by
  simp [pyZfill]
  omega

lemma pyZfill_all_digit (cs : List Char) (h : cs.all Char.isDigit = true) :
    (pyZfill 3 cs).all Char.isDigit = true := by
  rw [pyZfill, List.all_append, h]
  have : (List.replicate (3 - cs.length) '0').all Char.isDigit = true := by
    rw [List.all_eq_true]
    intro c hc
    rw [List.eq_of_mem_replicate hc]
    rfl
  simp [this]

lemma digitsVal_zero_prefix (k : ℕ) (cs : List Char) :
    digitsVal (List.replicate k '0' ++ cs) = digitsVal cs := by
  induction k with
  | zero => rfl
  | succ k ih =>
    rw [List.replicate_succ, List.cons_append]
    exact (show digitsVal ('0' :: (List.replicate k '0' ++ cs))
        = digitsVal (List.replicate k '0' ++ cs) from rfl).trans ih

lemma pyIntDigits_zfill (n : ℕ) (h : n ≤ 999) :
    pyIntDigits (pyZfill 3 (pyStrNat n)) = some n := by
  rw [pyIntDigits, if_pos]
  · rw [pyZfill, digitsVal_zero_prefix, digitsVal_pyStrNat]
  · constructor
    · intro hemp
      have := pyZfill_length (pyStrNat n) (pyStrNat_length_le n h)
      rw [hemp] at this
      simp at this
    · exact pyZfill_all_digit _ (pyStrNat_all_digit n)

lemma pySplitChar_ne_nil (sep : Char) (l : List Char) : pySplitChar sep l ≠ [] := by
  cases l with
  | nil => simp [pySplitChar]
  | cons c cs =>
    rw [pySplitChar]
    rcases h : pySplitChar sep cs with _ | ⟨p, ps⟩
    · simp
    · split
      · simp
      · split <;> simp

lemma pySplitChar_not_mem (sep : Char) (l : List Char) (h : sep ∉ l) :
    pySplitChar sep l = [l] := by
  induction l with
  | nil => rfl
  | cons c cs ih =>
    have hc : ¬((c == sep) = true) := by
      simp only [beq_iff_eq]
      rintro rfl
      exact h (List.mem_cons_self c cs)
    rw [pySplitChar, ih (fun hm => h (List.mem_cons_of_mem c hm))]
    simp [hc]

lemma pySplitChar_append (sep : Char) (l r : List Char) (h : sep ∉ l) :
    pySplitChar sep (l ++ sep :: r) = l :: pySplitChar sep r := by
  induction l with
  | nil =>
    rcases hr : pySplitChar sep r with _ | ⟨p, ps⟩
    · exact absurd hr (pySplitChar_ne_nil sep r)
    · rw [List.nil_append, pySplitChar, hr]
      simp
  | cons c cs ih =>
    have hc : ¬((c == sep) = true) := by
      simp only [beq_iff_eq]
      rintro rfl
      exact h (List.mem_cons_self c cs)
    rw [List.cons_append, pySplitChar, ih (fun hm => h (List.mem_cons_of_mem c hm))]
    simp [hc]

lemma isDigit_ne_of (c x : Char) (hx : x.isDigit = false) (h : c.isDigit = true) :
    c ≠ x := by
  rintro rfl
  rw [hx] at h
  exact Bool.false_ne_true h

lemma not_mem_of_all_digit (x : Char) (hx : x.isDigit = false) (cs : List Char)
    (h : cs.all Char.isDigit = true) : x ∉ cs := by
  intro hm
  rw [List.all_eq_true] at h
  exact isDigit_ne_of x x hx (h x hm) rfl

/-- The spec-shaped filename always passes the code's `re.match` check:
take `i` = the stem length. -/
lemma reMatchName_mk (stem : List Char) (n : ℕ) (hstem : plainStem stem)
    (hn : n ≤ 999) : reMatchName (mkSuggested stem n) = true := by
  obtain ⟨d1, d2, d3, hz, hd1, hd2, hd3⟩ :
      ∃ d1 d2 d3, pyZfill 3 (pyStrNat n) = [d1, d2, d3] ∧
        d1.isDigit = true ∧ d2.isDigit = true ∧ d3.isDigit = true := by
    have hlen := pyZfill_length (pyStrNat n) (pyStrNat_length_le n hn)
    have hdig := pyZfill_all_digit (pyStrNat n) (pyStrNat_all_digit n)
    rcases hzf : pyZfill 3 (pyStrNat n) with _ | ⟨a, _ | ⟨b, _ | ⟨c, _ | ⟨d, t⟩⟩⟩⟩ <;>
        rw [hzf] at hlen hdig
    · simp at hlen
    · simp at hlen
    · simp at hlen
    · simp only [List.all_cons, List.all_nil, Bool.and_true, Bool.and_eq_true] at hdig
      exact ⟨a, b, c, rfl, hdig.1, hdig.2.1, hdig.2.2⟩
    · simp at hlen
  rw [reMatchName, List.any_eq_true]
  refine ⟨stem.length, List.mem_range.mpr ?_, ?_⟩
  · rw [mkSuggested, List.length_append]
    simp
  · rw [mkSuggested, hz]
    have ht : stem ++ '_' :: ([d1, d2, d3] ++ ".jpg".data)
        = stem ++ ('_' :: ([d1, d2, d3] ++ ".jpg".data)) := rfl
    rw [ht, List.take_left, List.drop_left]
    have hw : stem.all isWordChar = true := by
      rw [List.all_eq_true]
      intro c hc
      have := (List.all_eq_true.mp hstem.2) c hc
      exact (Bool.and_eq_true _ _).mp this |>.1
    have hne : ¬(stem.length == 0) = true := by
      simp only [beq_iff_eq, List.length_eq_zero]
      exact hstem.1
    rw [show ('_' :: ([d1, d2, d3] ++ ".jpg".data))
        = ['_', d1, d2, d3, '.', 'j', 'p', 'g'] from rfl]
    simp [patTail, hw, hd1, hd2, hd3, hne]

/-- The code's filename increment, applied to a spec-shaped filename with
counter below 999, bumps the counter and keeps everything else. -/
lemma incrementSuggested_mk (stem : List Char) (n : ℕ) (hstem : plainStem stem)
    (hn : n ≤ 998) :
    incrementSuggested (mkSuggested stem n) = some (mkSuggested stem (n + 1)) := by
  have hz_digit : (pyZfill 3 (pyStrNat n)).all Char.isDigit = true :=
    pyZfill_all_digit (pyStrNat n) (pyStrNat_all_digit n)
  have hu_stem : '_' ∉ stem := by
    intro hm
    have := (List.all_eq_true.mp hstem.2) '_' hm
    simp at this
  have hu_tail : '_' ∉ pyZfill 3 (pyStrNat n) ++ ".jpg".data := by
    rw [List.mem_append]
    rintro (hm | hm)
    · exact not_mem_of_all_digit '_' (by decide) _ hz_digit hm
    · simp at hm
  have hdot : '.' ∉ pyZfill 3 (pyStrNat n) :=
    not_mem_of_all_digit '.' (by decide) _ hz_digit
  have hsplit_u : pySplitChar '_' (mkSuggested stem n)
      = [stem, pyZfill 3 (pyStrNat n) ++ ".jpg".data] := by
    rw [mkSuggested, pySplitChar_append '_' stem _ hu_stem,
      pySplitChar_not_mem '_' _ hu_tail]
  have hsplit_d : pySplitChar '.' (pyZfill 3 (pyStrNat n) ++ ".jpg".data)
      = [pyZfill 3 (pyStrNat n), "jpg".data] := by
    rw [show (".jpg".data : List Char) = '.' :: "jpg".data from rfl,
      pySplitChar_append '.' _ _ hdot,
      pySplitChar_not_mem '.' "jpg".data (by decide)]
  rw [incrementSuggested, if_pos (reMatchName_mk stem n hstem (by omega))]
  simp only [hsplit_u, List.getD_cons_succ, List.getD_cons_zero, List.headD_cons,
    hsplit_d, pyIntDigits_zfill n (by omega)]
  rw [mkSuggested]
  simp

/-- A blank 8 × 8 image for save scenarios. -/
def demoImg8 : QImage := ⟨8, 8, fun _ _ => 0⟩

/-- A small crop box for save scenarios. -/
def demoBox : BoxItem := ⟨0, 0, 4, 4, 0, 0, 20⟩

/-- A session ready to save, with suggested filename `image_001.jpg`. -/
def demoSaveState : AppState :=
  { initState with
    image := some demoImg8
    box := some demoBox
    suggested_filename := "image_001.jpg".data }

/-- C3 (counterexample): a successful save to the destination `other.jpg`
from suggestion `image_001.jpg` leaves the suggestion at `other.jpg` — the
basename of the chosen path — not at `image_002.jpg` as the claim
requires. -/
theorem c3_counterexample :
    ((save_image demoSaveState "other.jpg".data).map fun r =>
        (r.1.suggested_filename, r.2.isSome))
        = some ("other.jpg".data, true) ∧
      "other.jpg".data ≠ "image_002.jpg".data := by
  constructor
  · rw [save_image_run demoSaveState demoImg8 demoBox "image_002.jpg".data
      "other.jpg".data rfl rfl (by decide) (by decide)]
    rfl
  · decide

/-- C3 (amended): the increment applies to the dialog's offered default,
and the suggestion after a successful save is the chosen destination's
basename.  Hence when the user accepts the offered default: a suggestion
of the spec's `stem_NNN.jpg` shape (underscore-free word stem, counter
below 999) comes out incremented with the counter still zero-padded to 3
digits, and a suggestion failing the code's pattern check comes out
unchanged. -/
theorem c3_suggested_filename_rule :
    (∀ st : AppState, ∀ img : QImage, ∀ b : BoxItem, ∀ stem : List Char, ∀ n : ℕ,
        ∀ chosen : List Char,
        st.image = some img → st.box = some b → plainStem stem → n ≤ 998 →
        st.suggested_filename = mkSuggested stem n →
        chosen ≠ [] → pyBasename chosen = mkSuggested stem (n + 1) →
        ((save_image st chosen).map fun r => (r.1.suggested_filename, r.2.isSome))
          = some (mkSuggested stem (n + 1), true)) ∧
      (∀ st : AppState, ∀ img : QImage, ∀ b : BoxItem, ∀ chosen : List Char,
        st.image = some img → st.box = some b →
        reMatchName st.suggested_filename = false →
        chosen ≠ [] → pyBasename chosen = st.suggested_filename →
        ((save_image st chosen).map fun r => (r.1.suggested_filename, r.2.isSome))
          = some (st.suggested_filename, true)) := by
  constructor
  · intro st img b stem n chosen himg hbox hstem hn hsugg hch hbase
    rw [save_image_run st img b (mkSuggested stem (n + 1)) chosen himg hbox
      (by rw [hsugg]; exact incrementSuggested_mk stem n hstem hn) hch]
    simp [hbase]
  · intro st img b chosen himg hbox hnm hch hbase
    rw [save_image_run st img b st.suggested_filename chosen himg hbox
      (by rw [incrementSuggested, hnm]; simp) hch]
    simp [hbase]

/-- C3 (amended, witness): saving `image_001.jpg` to the accepted default
destination `image_002.jpg` yields suggestion `image_002.jpg`. -/
theorem c3_suggested_filename_rule_witness :
    ((save_image demoSaveState "image_002.jpg".data).map fun r =>
        (r.1.suggested_filename, r.2.isSome))
      = some (mkSuggested "image".data 2, true) :=
  c3_suggested_filename_rule.1 demoSaveState demoImg8 demoBox "image".data 1
    "image_002.jpg".data rfl rfl ⟨by decide, by decide⟩ (by norm_num)
    (by decide) (by decide) (by decide)

/-- C4 (counterexample): a *cancelled* save attempt (image and box
present, dialog dismissed, nothing written) still advances the suggestion
from `image_001.jpg` to `image_002.jpg`, because the code increments it
before opening the dialog. -/
theorem c4_counterexample :
    ((save_image demoSaveState []).map fun r => (r.1.suggested_filename, r.2.isSome))
        = some ("image_002.jpg".data, false) ∧
      "image_002.jpg".data ≠ "image_001.jpg".data := by
  constructor
  · rw [show save_image demoSaveState [] = some
        ({ demoSaveState with suggested_filename := "image_002.jpg".data }, none) from by
      unfold save_image
      rw [show demoSaveState.image = some demoImg8 from rfl,
        show demoSaveState.box = some demoBox from rfl,
        show incrementSuggested demoSaveState.suggested_filename
          = some "image_002.jpg".data from by decide]
      rfl]
    rfl
  · decide

/-- C4 (amended): on a save attempt with image and box present, the
pattern increment is applied *before* the dialog opens: a cancelled
attempt ends with the incremented suggestion (and nothing written); only a
suggestion failing the pattern check survives a cancelled attempt
unchanged. -/
theorem c4_increment_before_dialog (st : AppState) (img : QImage) (b : BoxItem)
    (himg : st.image = some img) (hbox : st.box = some b) :
    save_image st [] = (incrementSuggested st.suggested_filename).map
        (fun s => ({ st with suggested_filename := s }, none)) ∧
      (reMatchName st.suggested_filename = false → save_image st [] = some (st, none)) := by
  have hmain : save_image st [] = (incrementSuggested st.suggested_filename).map
      (fun s => ({ st with suggested_filename := s }, none)) := by
    unfold save_image
    rw [himg, hbox]
    cases hinc : incrementSuggested st.suggested_filename with
    | none => simp
    | some s => simp
  refine ⟨hmain, fun hnm => ?_⟩
  rw [hmain, incrementSuggested, hnm]
  rfl

/-- C4 (amended, witness): the pre-dialog increment evaluated on the
concrete cancelled save. -/
theorem c4_increment_before_dialog_witness :
    save_image demoSaveState [] = (incrementSuggested demoSaveState.suggested_filename).map
        (fun s => ({ demoSaveState with suggested_filename := s }, none)) ∧
      (reMatchName demoSaveState.suggested_filename = false →
        save_image demoSaveState [] = some (demoSaveState, none)) :=
  c4_increment_before_dialog demoSaveState demoImg8 demoBox rfl rfl
